import Mathlib

/-!
# mocka: rendering, building and running a throwaway program

A shallow embedding of `src/mocka.go`. The package has one type, `Service`, two constructors
and eight methods. Everything outside the package that the methods talk to (the file system,
the Go compiler, child processes, cancellation contexts) is kept in a `World` value that is
passed through each call; what the operating system answers to a call is an explicit argument
of the call, so that every property below is stated for every possible answer.

Go values are embedded as follows.

* `string` is `GoString`, a list of symbols. The only string functions used, `strings.ReplaceAll`
  with a non-empty ASCII pattern and `strconv.Itoa`, treat every symbol outside the pattern
  alike, so the statements hold whether a symbol is read as a byte or as a code point.
* `int` is `Int`; nothing in the package does arithmetic on it, it is only printed.
* `error` is `Option Error`, `none` being `nil`.
* A `*Service` receiver is a `Service` argument, and the receiver after the call is part of
  the result.
* The pair `ctx`, `cf` that both constructors obtain from `context.WithCancel` is kept as the
  context and the scope that `cf` cancels; a `Service` is always one that a constructor built.
-/

namespace Mocka

/-! ## Strings -/

/-- A Go string. -/
abbrev GoString := List Char

/-- The replacement loop of `strings.Replace` for a non-empty `old`: scan `s` from the left,
emit `new` for each occurrence of `old` and continue after it, copy every other symbol.
`fuel` bounds the number of iterations; `s.length + 1` is always enough. -/
def replaceFrom (old new : GoString) : Nat → GoString → GoString
  | 0, s => s
  | fuel + 1, s =>
    if old.isPrefixOf s then new ++ replaceFrom old new fuel (s.drop old.length)
    else
      match s with
      | [] => []
      | c :: t => c :: replaceFrom old new fuel t

/-- The function `strings.ReplaceAll(s, old, new)`: all non-overlapping occurrences of `old`,
found left to right, are replaced by `new`. As in Go, nothing happens when `old == new`, and an
empty `old` matches before every symbol and at the end. -/
def ReplaceAll (s old new : GoString) : GoString :=
  if old = new then s
  else if old = [] then new ++ s.flatMap (fun c => c :: new)
  else replaceFrom old new (s.length + 1) s

/-- The function `strings.Contains(s, substr)`. -/
def Contains : GoString → GoString → Bool
  | [], substr => substr.isPrefixOf []
  | c :: t, substr => substr.isPrefixOf (c :: t) || Contains t substr

/-- The function `strconv.Itoa`: decimal digits, with a leading minus sign for negatives. -/
def Itoa (i : Int) : GoString :=
  if i < 0 then '-' :: Nat.toDigits 10 i.natAbs else Nat.toDigits 10 i.natAbs

/-- The symbols `strconv.Itoa` can produce. -/
def numChars : GoString := "-0123456789".toList

/-- The placeholder `{{exitCode}}` of the console template. -/
def exitCodeToken : GoString := "\x7b\x7bexitCode\x7d\x7d".toList

/-- The placeholder `{{statusCode}}` of the web-app template. -/
def statusCodeToken : GoString := "\x7b\x7bstatusCode\x7d\x7d".toList

/-- The placeholder `{{statusMessage}}` of the web-app template. -/
def statusMessageToken : GoString := "\x7b\x7bstatusMessage\x7d\x7d".toList

/-- The placeholder `{{port}}` of the web-app template. -/
def portToken : GoString := "\x7b\x7bport\x7d\x7d".toList

/-! ## The world outside the package -/

/-- A Go `error` value. -/
structure Error where
  msg : String
  deriving DecidableEq, Repr

/-- The error `context.Canceled`. -/
def Canceled : Error := ⟨"context canceled"⟩

/-- The error of `exec.Cmd.Start` for a command whose path is empty. -/
def ErrNoCommand : Error := ⟨"exec: no command"⟩

/-- The error `fs.ErrNotExist`. -/
def ErrNotExist : Error := ⟨"file does not exist"⟩

/-- A `context.Context`: the cancellation scopes between it and the background context.
The context is done as soon as one of them has been cancelled. -/
structure Context where
  scopes : List Nat
  deriving DecidableEq, Repr

/-- The context `context.Background()`, which is never done. -/
def Background : Context := ⟨[]⟩

/-- The context returned by `context.WithCancel(parent)`; `scope` identifies the new
cancellation scope, and the returned cancel function cancels exactly that scope. -/
def WithCancel (parent : Context) (scope : Nat) : Context := ⟨scope :: parent.scopes⟩

/-- A call that left the package and had an effect outside it. -/
inductive Call where
  | mkdirTemp
  | create (file : GoString)
  | write (file : GoString) (data : GoString)
  | close (file : GoString)
  | goBuild (target source : GoString)
  | readFile (name : GoString)
  | writeFile (name : GoString) (data : GoString)
  | process (ctx : Context) (path : GoString)
  deriving DecidableEq, Repr

/-- The state outside the package: file contents by path, the cancellation scopes that have been
cancelled, and the calls made so far, oldest first. `Call.process ctx path` records that a child
process running `path` was created and bound to `ctx`. -/
structure World where
  files : List (GoString × GoString)
  cancelled : List Nat
  calls : List Call
  deriving DecidableEq, Repr

/-- Append a call to the record. -/
def World.log (w : World) (c : Call) : World := { w with calls := w.calls ++ [c] }

/-- Content of the file at `name`, if there is one. -/
def World.getFile (w : World) (name : GoString) : Option GoString := w.files.lookup name

/-- Create or replace the file at `name`. -/
def World.putFile (w : World) (name data : GoString) : World :=
  { w with files := (name, data) :: w.files.filter (fun f => f.1 != name) }

/-- Run a cancel function: the first call cancels the scope, later calls do nothing. -/
def World.cancel (w : World) (scope : Nat) : World :=
  if scope ∈ w.cancelled then w else { w with cancelled := scope :: w.cancelled }

/-- Whether the context is done. -/
def Context.Done (c : Context) (w : World) : Bool :=
  c.scopes.any (fun n => decide (n ∈ w.cancelled))

/-- What a `Write` call answers: everything was written, or only the first `n` symbols and an
error. -/
inductive WriteOutcome where
  | complete
  | failed (n : Nat) (err : Error)
  deriving DecidableEq, Repr

/-- The call `fmt.Fprint(dst, data)` for a string operand: one `Write` of `data`. Returns what
the destination holds afterwards and the error of the write. -/
def Fprint (o : WriteOutcome) (dst data : GoString) : GoString × Option Error :=
  match o with
  | .complete => (dst ++ data, none)
  | .failed n err => (dst ++ data.take n, some err)

/-- What the operating system answers to `exec.Cmd.Run` once the command is started: the process
could not be created, or it ran and `Wait` returned `err`. -/
inductive RunOutcome where
  | startFailed (err : Error)
  | exited (err : Option Error)
  deriving DecidableEq, Repr

/-- The call `exec.CommandContext(ctx, path).Run()`. `Cmd.Start` refuses an empty path and a
context that is already done before it creates a process. -/
def cmdRun (r : RunOutcome) (ctx : Context) (path : GoString) (w : World) :
    Option Error × World :=
  if path = [] then (some ErrNoCommand, w)
  else if ctx.Done w then (some Canceled, w)
  else
    match r with
    | .startFailed err => (some err, w)
    | .exited err => (err, w.log (Call.process ctx path))

/-- The call `os.ReadFile(name)`; `fault` is an error the system may raise on its own. -/
def ReadFile (fault : Option Error) (name : GoString) (w : World) :
    Except Error GoString × World :=
  match fault with
  | some err => (.error err, w.log (Call.readFile name))
  | none =>
    match w.getFile name with
    | some data => (.ok data, w.log (Call.readFile name))
    | none => (.error ErrNotExist, w.log (Call.readFile name))

/-- The build platform: `runtime.GOOS` and `filepath.Join` for two elements. -/
structure Platform where
  GOOS : GoString
  Join : GoString → GoString → GoString

/-- The two template constants of package `assets`, which is not among the sources; they are
parameters of the constructors. -/
structure Assets where
  ConsoleTemplate : GoString
  WebAppTemplate : GoString

/-! ## The package -/

/-- The type `appType` with its two constants. -/
inductive AppType where
  | consoleType
  | webappType
  deriving DecidableEq, Repr

/-- The struct `Service`. Field `cf` is the cancel function, given by the scope it cancels. -/
structure Service where
  appType : AppType
  template : GoString
  exePath : GoString
  ctx : Context
  cf : Nat
  exitCode : Int
  statusCode : Int
  statusMessage : GoString
  deriving DecidableEq, Repr

/-- What a method returns: its error, the receiver after the call, and what it acted on. -/
structure Result (β : Type) where
  err : Option Error
  svc : Service
  out : β

/-- The constructor `NewConsoleService`; `scope` is the cancellation scope that
`context.WithCancel` allocates. -/
def NewConsoleService (assets : Assets) (scope : Nat) (exitCode : Int) : Service :=
  { appType := .consoleType
    exitCode := exitCode
    statusCode := 0
    statusMessage := []
    exePath := []
    ctx := WithCancel Background scope
    cf := scope
    template := ReplaceAll assets.ConsoleTemplate exitCodeToken (Itoa exitCode) }

/-- The constructor `NewWebAppService`. The second pass substitutes `strconv.Itoa(statusCode)`
for the status-message placeholder, as the source does. -/
def NewWebAppService (assets : Assets) (scope : Nat) (port statusCode : Int)
    (statusMessage : GoString) : Service :=
  let t1 := ReplaceAll assets.WebAppTemplate statusCodeToken (Itoa statusCode)
  let t2 := ReplaceAll t1 statusMessageToken (Itoa statusCode)
  let t3 := ReplaceAll t2 portToken (Itoa port)
  { appType := .webappType
    exitCode := 0
    statusCode := statusCode
    statusMessage := statusMessage
    exePath := []
    ctx := WithCancel Background scope
    cf := scope
    template := t3 }

/-- The method `WriteSource`: print the template into the writer `dst`. -/
def Service.WriteSource (wr : WriteOutcome) (s : Service) (dst : GoString) : Result GoString :=
  let r := Fprint wr dst s.template
  ⟨r.2, s, r.1⟩

/-- The method `CopySource`: `os.Create`, then print the template into the file, then the
deferred `Close`. -/
def Service.CopySource (create : Option Error) (wr : WriteOutcome) (s : Service)
    (file : GoString) (w : World) : Result World :=
  let w1 := w.log (Call.create file)
  match create with
  | some err => ⟨some err, s, w1⟩
  | none =>
    let r := Fprint wr [] s.template
    let w2 := (w1.putFile file r.1).log (Call.write file s.template)
    ⟨r.2, s, w2.log (Call.close file)⟩

/-- What the system answers to the external steps of one `Build` call: the directory made by
`os.MkdirTemp`, the two steps inside `CopySource`, and the compiler run with the executable
it writes. -/
structure BuildSteps where
  mkdirTemp : Except Error GoString
  create : Option Error
  fprint : WriteOutcome
  goBuild : Except Error GoString

/-- The method `Build`. -/
def Service.Build (p : Platform) (o : BuildSteps) (s : Service) (w : World) : Result World :=
  let w1 := w.log Call.mkdirTemp
  match o.mkdirTemp with
  | .error err => ⟨some err, s, w1⟩
  | .ok tmpDir =>
    let source := p.Join tmpDir "main.go".toList
    let r := s.CopySource o.create o.fprint source w1
    match r.err with
    | some err => ⟨some err, r.svc, r.out⟩
    | none =>
      let target := p.Join tmpDir "mocka".toList
      let target := if p.GOOS = "windows".toList then target ++ ".exe".toList else target
      let w2 := r.out.log (Call.goBuild target source)
      match o.goBuild with
      | .error err => ⟨some err, r.svc, w2⟩
      | .ok exe => ⟨none, { r.svc with exePath := target }, w2.putFile target exe⟩

/-- The method `WriteExe`. -/
def Service.WriteExe (fault : Option Error) (wr : WriteOutcome) (s : Service) (w : World)
    (dst : GoString) : Result (World × GoString) :=
  match ReadFile fault s.exePath w with
  | (.error err, w1) => ⟨some err, s, (w1, dst)⟩
  | (.ok cont, w1) =>
    let r := Fprint wr dst cont
    ⟨r.2, s, (w1, r.1)⟩

/-- The method `CopyExe`; `os.WriteFile` opens the destination and writes once. -/
def Service.CopyExe (fault create : Option Error) (wr : WriteOutcome) (s : Service)
    (name : GoString) (w : World) : Result World :=
  match ReadFile fault s.exePath w with
  | (.error err, w1) => ⟨some err, s, w1⟩
  | (.ok cont, w1) =>
    match create with
    | some err => ⟨some err, s, w1⟩
    | none =>
      let r := Fprint wr [] cont
      ⟨r.2, s, (w1.putFile name r.1).log (Call.writeFile name cont)⟩

/-- The method `GetExePath`. -/
def Service.GetExePath (s : Service) : GoString := s.exePath

/-- The context `Start` hands to `exec.CommandContext`: the local variable `useCtx`. -/
def Service.useCtx (s : Service) (ctx : Option Context) : Context :=
  match ctx with
  | some c => c
  | none => s.ctx

/-- The method `Start`; `ctx = none` is the nil context. -/
def Service.Start (r : RunOutcome) (ctx : Option Context) (s : Service) (w : World) :
    Result World :=
  let res := cmdRun r (s.useCtx ctx) s.exePath w
  ⟨res.1, s, res.2⟩

/-- The method `Stop`: call `cf`. -/
def Service.Stop (s : Service) (w : World) : Service × World := (s, w.cancel s.cf)

/-! ## Sequences of calls -/

/-- One call of a method of `Service`, with what the system answers to it. -/
inductive Op where
  | writeSource (wr : WriteOutcome) (dst : GoString)
  | copySource (create : Option Error) (wr : WriteOutcome) (file : GoString)
  | build (o : BuildSteps)
  | writeExe (fault : Option Error) (wr : WriteOutcome) (dst : GoString)
  | copyExe (fault create : Option Error) (wr : WriteOutcome) (name : GoString)
  | start (r : RunOutcome) (ctx : Option Context)
  | stop

/-- Perform one call: the error it returns and the state after it. -/
def step (p : Platform) (st : Service × World) : Op → Option Error × (Service × World)
  | .writeSource wr dst => ((st.1.WriteSource wr dst).err, ((st.1.WriteSource wr dst).svc, st.2))
  | .copySource create wr file =>
    let r := st.1.CopySource create wr file st.2
    (r.err, (r.svc, r.out))
  | .build o =>
    let r := st.1.Build p o st.2
    (r.err, (r.svc, r.out))
  | .writeExe fault wr dst =>
    let r := st.1.WriteExe fault wr st.2 dst
    (r.err, (r.svc, r.out.1))
  | .copyExe fault create wr name =>
    let r := st.1.CopyExe fault create wr name st.2
    (r.err, (r.svc, r.out))
  | .start r ctx =>
    let res := st.1.Start r ctx st.2
    (res.err, (res.svc, res.out))
  | .stop => (none, st.1.Stop st.2)

/-- Perform a sequence of calls, first to last. -/
def runOps (p : Platform) : Service × World → List Op → Service × World
  | st, [] => st
  | st, op :: ops => runOps p (step p st op).2 ops

/-- Whether every `Build` call in the sequence returns an error. -/
def noBuildSucceeds (p : Platform) : Service × World → List Op → Bool
  | _, [] => true
  | st, .build o :: ops =>
    (st.1.Build p o st.2).err.isSome && noBuildSucceeds p (step p st (.build o)).2 ops
  | st, op :: ops => noBuildSucceeds p (step p st op).2 ops

/-! ## Sample values -/

/-- A Unix platform with a two-element path join. -/
def linux : Platform := ⟨"linux".toList, fun dir name => dir ++ '/' :: name⟩

/-- A Windows platform. -/
def windows : Platform := ⟨"windows".toList, fun dir name => dir ++ '\\' :: name⟩

/-- Small templates carrying every placeholder. -/
def sampleAssets : Assets :=
  { ConsoleTemplate := "os.Exit(\x7b\x7bexitCode\x7d\x7d)".toList
    WebAppTemplate :=
      "w.WriteHeader(\x7b\x7bstatusCode\x7d\x7d); ".toList ++
      "w.Write(\x7b\x7bstatusMessage\x7d\x7d); ".toList ++
      ":\x7b\x7bport\x7d\x7d".toList }

/-- An empty world. -/
def emptyWorld : World := ⟨[], [], []⟩

/-- Answers of a `Build` call in which every step succeeds, in directory `dir`. -/
def okSteps (dir : GoString) : BuildSteps :=
  ⟨.ok dir, none, .complete, .ok "ELF".toList⟩

/-! ## Facts about the string functions -/

theorem replaceFrom_succ (old new : GoString) (n : Nat) (s : GoString) :
    replaceFrom old new (n + 1) s =
      if old.isPrefixOf s then new ++ replaceFrom old new n (s.drop old.length)
      else match s with
        | [] => []
        | c :: t => c :: replaceFrom old new n t := by
  cases s <;> rfl

/-- More fuel than the length of the text changes nothing: the loop has ended by then. -/
theorem replaceFrom_fuel (old new : GoString) (hold : old ≠ []) :
    ∀ (f1 f2 : Nat) (s : GoString), s.length < f1 → s.length < f2 →
      replaceFrom old new f1 s = replaceFrom old new f2 s := by
  intro f1
  induction f1 with
  | zero => intro f2 s h1 _; exact absurd h1 (Nat.not_lt_zero _)
  | succ n ih =>
    intro f2 s h1 h2
    cases f2 with
    | zero => exact absurd h2 (Nat.not_lt_zero _)
    | succ m =>
      rw [replaceFrom_succ, replaceFrom_succ]
      by_cases hpre : old.isPrefixOf s = true
      · have hlen : old.length ≤ s.length := (List.isPrefixOf_iff_prefix.mp hpre).length_le
        have hpos : 0 < old.length := List.length_pos.mpr hold
        rw [if_pos hpre, if_pos hpre, ih m (s.drop old.length)
          (by rw [List.length_drop]; omega) (by rw [List.length_drop]; omega)]
      · rw [if_neg hpre, if_neg hpre]
        cases s with
        | nil => rfl
        | cons c t =>
          simp only
          rw [ih m t (by simpa using h1) (by simpa using h2)]

theorem Contains_iff_occurs (s sub : GoString) : Contains s sub = true ↔ sub <:+: s := by
  induction s with
  | nil => simp [Contains]
  | cons c t ih => simp [Contains, List.infix_cons_iff, ih]

/-- A text free of the symbols of `new` that starts the output of the replacement loop also
starts its input: the loop copies such a text unchanged. -/
theorem starts_input_of_starts_output (old new : GoString) (hne : new ≠ []) :
    ∀ (fuel : Nat) (s q : GoString), (∀ c ∈ new, c ∉ q) →
      q <+: replaceFrom old new fuel s → q <+: s := by
  intro fuel
  induction fuel with
  | zero => intro s q _ h; simpa [replaceFrom] using h
  | succ n ih =>
    intro s q hq h
    rw [replaceFrom_succ] at h
    split at h
    · cases q with
      | nil => exact List.nil_prefix
      | cons q0 q1 =>
        cases new with
        | nil => exact absurd rfl hne
        | cons n0 n1 =>
          have h0 : q0 = n0 := (List.cons_prefix_cons.mp h).1
          exact absurd (by simp [h0]) (hq n0 (by simp))
    · cases s with
      | nil => simpa using h
      | cons c t =>
        simp only at h
        rcases List.prefix_cons_iff.mp h with h0 | ⟨q1, hq1, hpre⟩
        · subst h0; exact List.nil_prefix
        · subst hq1
          have := ih t q1 (fun x hx hmem => hq x hx (List.mem_cons_of_mem _ hmem)) hpre
          exact List.cons_prefix_cons.mpr ⟨rfl, this⟩

/-- An occurrence of `p` cannot overlap a text `r` none of whose symbols is in `p`. -/
theorem occurs_after_of_occurs_append (p r x : GoString) (hr : ∀ c ∈ r, c ∉ p) :
    p <:+: r ++ x → p <:+: x := by
  induction r with
  | nil => intro h; simpa using h
  | cons c r ih =>
    intro h
    have hr1 : ∀ d ∈ r, d ∉ p := fun d hd => hr d (List.mem_cons_of_mem _ hd)
    rcases List.infix_cons_iff.mp h with h1 | h1
    · cases p with
      | nil => exact ⟨[], x, by simp⟩
      | cons p0 p1 =>
        have h0 : p0 = c := (List.cons_prefix_cons.mp h1).1
        exact absurd (by simp [h0]) (hr c (by simp))
    · exact ih hr1 h1

/-- The replacement loop creates no new occurrence of a text `p` that shares no symbol with
`new`. -/
theorem occurs_input_of_occurs_output (old new p : GoString) (hne : new ≠ [])
    (hp : ∀ c ∈ new, c ∉ p) :
    ∀ (fuel : Nat) (s : GoString), p <:+: replaceFrom old new fuel s → p <:+: s := by
  intro fuel
  induction fuel with
  | zero => intro s h; simpa [replaceFrom] using h
  | succ n ih =>
    intro s h
    by_cases hpre : old.isPrefixOf s = true
    · rw [replaceFrom_succ, if_pos hpre] at h
      have h1 := ih _ (occurs_after_of_occurs_append p new _ hp h)
      exact h1.trans (List.drop_suffix _ _).isInfix
    · cases s with
      | nil =>
        rw [replaceFrom_succ, if_neg hpre] at h
        exact h
      | cons c t =>
        have h0 := h
        rw [replaceFrom_succ, if_neg hpre] at h
        simp only at h
        rcases List.infix_cons_iff.mp h with h1 | h1
        · have h2 : p <+: replaceFrom old new (n + 1) (c :: t) := by
            rw [replaceFrom_succ, if_neg hpre]; exact h1
          exact (starts_input_of_starts_output old new hne (n + 1) (c :: t) p hp h2).isInfix
        · exact List.infix_cons_iff.mpr (Or.inr (ih t h1))

/-- With enough fuel the replacement loop leaves no occurrence of `old`. -/
theorem not_occurs_replaceFrom (old new : GoString) (hold : old ≠ []) (hne : new ≠ [])
    (hp : ∀ c ∈ new, c ∉ old) :
    ∀ (fuel : Nat) (s : GoString), s.length < fuel →
      ¬ old <:+: replaceFrom old new fuel s := by
  intro fuel
  induction fuel with
  | zero => intro s hlen; exact absurd hlen (Nat.not_lt_zero _)
  | succ n ih =>
    intro s hlen h
    by_cases hpre : old.isPrefixOf s = true
    · rw [replaceFrom_succ, if_pos hpre] at h
      have hpre1 : old <+: s := List.isPrefixOf_iff_prefix.mp hpre
      have hlen1 : (s.drop old.length).length < n := by
        have h1 : old.length ≤ s.length := hpre1.length_le
        have h2 : 0 < old.length := List.length_pos.mpr hold
        rw [List.length_drop]; omega
      exact ih _ hlen1 (occurs_after_of_occurs_append old new _ hp h)
    · cases s with
      | nil =>
        rw [replaceFrom_succ, if_neg hpre] at h
        exact hold (List.infix_nil.mp h)
      | cons c t =>
        rw [replaceFrom_succ, if_neg hpre] at h
        simp only at h
        rcases List.infix_cons_iff.mp h with h1 | h1
        · have h2 : old <+: replaceFrom old new (n + 1) (c :: t) := by
            rw [replaceFrom_succ, if_neg hpre]; exact h1
          exact hpre (List.isPrefixOf_iff_prefix.mpr
            (starts_input_of_starts_output old new hne (n + 1) (c :: t) old hp h2))
        · exact ih t (by simpa using hlen) h1

/-- After `ReplaceAll` no occurrence of the pattern is left, when the replacement is not empty
and shares no symbol with the pattern. -/
theorem Contains_ReplaceAll_self (s old new : GoString) (hold : old ≠ []) (hne : new ≠ [])
    (hp : ∀ c ∈ new, c ∉ old) : Contains (ReplaceAll s old new) old = false := by
  have hon : old ≠ new := by
    intro h
    cases new with
    | nil => exact hne rfl
    | cons n0 n1 => exact hp n0 (by simp) (by simp [h])
  rw [Bool.eq_false_iff, Ne, Contains_iff_occurs]
  simp only [ReplaceAll, if_neg hon, if_neg hold]
  exact not_occurs_replaceFrom old new hold hne hp _ s (Nat.lt_succ_self _)

/-- A text absent before `ReplaceAll` is absent after it, when the replacement is not empty and
shares no symbol with the text. -/
theorem Contains_ReplaceAll_other (s old new p : GoString) (hold : old ≠ []) (hne : new ≠ [])
    (hp : ∀ c ∈ new, c ∉ p) (hs : Contains s p = false) :
    Contains (ReplaceAll s old new) p = false := by
  rw [Bool.eq_false_iff, Ne, Contains_iff_occurs] at *
  intro h
  apply hs
  unfold ReplaceAll at h
  split at h
  · exact h
  · exact occurs_input_of_occurs_output old new p hne hp _ s h

theorem toDigitsCore_numChars : ∀ (fuel n : Nat) (ds : List Char),
    (∀ c ∈ ds, c ∈ numChars) → ∀ c ∈ Nat.toDigitsCore 10 fuel n ds, c ∈ numChars := by
  intro fuel
  induction fuel with
  | zero => intro n ds h; simpa [Nat.toDigitsCore] using h
  | succ k ih =>
    intro n ds h
    have hd : ∀ m, m < 10 → Nat.digitChar m ∈ numChars := by decide
    have hds : ∀ c ∈ Nat.digitChar (n % 10) :: ds, c ∈ numChars := by
      intro c hc
      rcases List.mem_cons.mp hc with h1 | h1
      · rw [h1]; exact hd _ (Nat.mod_lt _ (by decide))
      · exact h c h1
    rw [Nat.toDigitsCore]
    split
    · exact hds
    · exact ih _ _ hds

theorem toDigitsCore_ne_nil (fuel n : Nat) (ds : List Char) (h : ds ≠ [] ∨ 0 < fuel) :
    Nat.toDigitsCore 10 fuel n ds ≠ [] := by
  induction fuel generalizing n ds with
  | zero =>
    rcases h with h | h
    · simpa [Nat.toDigitsCore] using h
    · exact absurd h (Nat.lt_irrefl _)
  | succ k ih =>
    rw [Nat.toDigitsCore]
    split
    · simp
    · exact ih _ _ (Or.inl (by simp))

theorem Itoa_ne_nil (i : Int) : Itoa i ≠ [] := by
  unfold Itoa
  split
  · simp
  · exact toDigitsCore_ne_nil _ _ _ (Or.inr (Nat.succ_pos _))

theorem Itoa_numChars (i : Int) : ∀ c ∈ Itoa i, c ∈ numChars := by
  have h := toDigitsCore_numChars (i.natAbs + 1) i.natAbs [] (by simp)
  unfold Itoa
  split
  · intro c hc
    rcases List.mem_cons.mp hc with h1 | h1
    · rw [h1]; decide
    · exact h c h1
  · exact h

/-- No symbol of a decimal number occurs in a placeholder. -/
theorem Itoa_not_mem_token (i : Int) (tok : GoString)
    (htok : ∀ c ∈ numChars, c ∉ tok) : ∀ c ∈ Itoa i, c ∉ tok :=
  fun c hc => htok c (Itoa_numChars i c hc)

/-! ## Rendering -/

/-- C1: for every template text and all parameters, the rendered source of a constructed
Service contains no placeholder: none of `{{exitCode}}` after NewConsoleService, and none of
`{{statusCode}}`, `{{statusMessage}}`, `{{port}}` after NewWebAppService. -/
theorem rendered_source_has_no_placeholder (assets : Assets) (scope : Nat)
    (exitCode port statusCode : Int) (statusMessage : GoString) :
    Contains (NewConsoleService assets scope exitCode).template exitCodeToken = false ∧
    Contains (NewWebAppService assets scope port statusCode statusMessage).template
      statusCodeToken = false ∧
    Contains (NewWebAppService assets scope port statusCode statusMessage).template
      statusMessageToken = false ∧
    Contains (NewWebAppService assets scope port statusCode statusMessage).template
      portToken = false := by
  have he : ∀ c ∈ numChars, c ∉ exitCodeToken := by decide
  have hc : ∀ c ∈ numChars, c ∉ statusCodeToken := by decide
  have hm : ∀ c ∈ numChars, c ∉ statusMessageToken := by decide
  have hp : ∀ c ∈ numChars, c ∉ portToken := by decide
  have hc0 : statusCodeToken ≠ [] := by decide
  have hm0 : statusMessageToken ≠ [] := by decide
  have hp0 : portToken ≠ [] := by decide
  refine ⟨?_, ?_, ?_, ?_⟩
  · exact Contains_ReplaceAll_self _ _ _ (by decide) (Itoa_ne_nil _) (Itoa_not_mem_token _ _ he)
  · exact Contains_ReplaceAll_other _ _ _ _ hp0 (Itoa_ne_nil _) (Itoa_not_mem_token _ _ hc)
      (Contains_ReplaceAll_other _ _ _ _ hm0 (Itoa_ne_nil _) (Itoa_not_mem_token _ _ hc)
        (Contains_ReplaceAll_self _ _ _ hc0 (Itoa_ne_nil _) (Itoa_not_mem_token _ _ hc)))
  · exact Contains_ReplaceAll_other _ _ _ _ hp0 (Itoa_ne_nil _) (Itoa_not_mem_token _ _ hm)
      (Contains_ReplaceAll_self _ _ _ hm0 (Itoa_ne_nil _) (Itoa_not_mem_token _ _ hm))
  · exact Contains_ReplaceAll_self _ _ _ hp0 (Itoa_ne_nil _) (Itoa_not_mem_token _ _ hp)

/-- C2: at port 8080, status code 404 and status message "Not Found" the rendered web-app
source carries the decimal status code where the status-message placeholder stood, and the
message text appears nowhere in it; for all parameters the rendered source is the same
whatever the message is. -/
theorem NewWebAppService_drops_statusMessage :
    (NewWebAppService sampleAssets 0 8080 404 "Not Found".toList).template
      = "w.WriteHeader(404); w.Write(404); :8080".toList ∧
    Contains (NewWebAppService sampleAssets 0 8080 404 "Not Found".toList).template
      "Not Found".toList = false ∧
    ∀ (assets : Assets) (scope : Nat) (port statusCode : Int) (m1 m2 : GoString),
      (NewWebAppService assets scope port statusCode m1).template
        = (NewWebAppService assets scope port statusCode m2).template :=
  ⟨by decide, by decide, fun _ _ _ _ _ _ => rfl⟩

/-! ## Writing the source -/

theorem getFile_log (w : World) (c : Call) (name : GoString) :
    (w.log c).getFile name = w.getFile name := rfl

theorem getFile_putFile (w : World) (name data : GoString) :
    (w.putFile name data).getFile name = some data := by
  simp [World.getFile, World.putFile, List.lookup]

/-- C10: when the write succeeds, WriteSource on an empty writer leaves exactly the rendered
source in it, and when CopySource succeeds the file at its path holds exactly the rendered
source, so both outputs are identical; neither call changes the Service. -/
theorem WriteSource_CopySource_same_bytes (s : Service) (wr1 wr2 : WriteOutcome)
    (create : Option Error) (file : GoString) (w : World)
    (h1 : (s.WriteSource wr1 []).err = none)
    (h2 : (s.CopySource create wr2 file w).err = none) :
    (s.WriteSource wr1 []).out = s.template ∧
    (s.CopySource create wr2 file w).out.getFile file = some s.template ∧
    some (s.WriteSource wr1 []).out = (s.CopySource create wr2 file w).out.getFile file ∧
    (s.WriteSource wr1 []).svc = s ∧
    (s.CopySource create wr2 file w).svc = s := by
  have hw : (s.WriteSource wr1 []).out = s.template := by
    cases wr1 with
    | complete => simp [Service.WriteSource, Fprint]
    | failed n e => simp [Service.WriteSource, Fprint] at h1
  have hc : (s.CopySource create wr2 file w).out.getFile file = some s.template := by
    cases create with
    | some e => simp [Service.CopySource] at h2
    | none =>
      cases wr2 with
      | complete =>
        simp only [Service.CopySource, Fprint, getFile_log, getFile_putFile, List.nil_append]
      | failed n e => simp [Service.CopySource, Fprint] at h2
  refine ⟨hw, hc, by rw [hw, hc], rfl, ?_⟩
  cases create <;> rfl

theorem WriteSource_CopySource_same_bytes_witness :
    (Service.WriteSource .complete (NewConsoleService sampleAssets 0 42) []).out
      = "os.Exit(42)".toList ∧
    (Service.CopySource none .complete (NewConsoleService sampleAssets 0 42)
      "main.go".toList emptyWorld).out.getFile "main.go".toList = some "os.Exit(42)".toList :=
  ⟨(WriteSource_CopySource_same_bytes (NewConsoleService sampleAssets 0 42) .complete .complete
      none "main.go".toList emptyWorld rfl rfl).1,
   (WriteSource_CopySource_same_bytes (NewConsoleService sampleAssets 0 42) .complete .complete
      none "main.go".toList emptyWorld rfl rfl).2.1⟩

/-! ## Build -/

/-- C3: Build returns the error of the first failing step (directory creation, then the file
creation and the write inside CopySource, then the compiler), makes no call after it and
returns the Service unchanged, artifact path included; it returns nil exactly when every step
succeeds; CopySource fails exactly when its file creation or its write fails. -/
theorem Build_returns_first_error (p : Platform) (o : BuildSteps) (s : Service) (w : World) :
    (∀ e, o.mkdirTemp = .error e →
      (s.Build p o w).err = some e ∧ (s.Build p o w).svc = s ∧
      (s.Build p o w).out.calls = w.calls ++ [Call.mkdirTemp]) ∧
    (∀ d e, o.mkdirTemp = .ok d → o.create = some e →
      (s.Build p o w).err = some e ∧ (s.Build p o w).svc = s ∧
      (s.Build p o w).out.calls
        = w.calls ++ [Call.mkdirTemp, Call.create (p.Join d "main.go".toList)]) ∧
    (∀ d n e, o.mkdirTemp = .ok d → o.create = none → o.fprint = .failed n e →
      (s.Build p o w).err = some e ∧ (s.Build p o w).svc = s ∧
      (s.Build p o w).out.calls
        = w.calls ++ [Call.mkdirTemp, Call.create (p.Join d "main.go".toList),
            Call.write (p.Join d "main.go".toList) s.template,
            Call.close (p.Join d "main.go".toList)]) ∧
    (∀ d e, o.mkdirTemp = .ok d → o.create = none → o.fprint = .complete →
      o.goBuild = .error e →
      (s.Build p o w).err = some e ∧ (s.Build p o w).svc = s) ∧
    ((s.Build p o w).err = none ↔
      ∃ d exe, o.mkdirTemp = .ok d ∧ o.create = none ∧ o.fprint = .complete ∧
        o.goBuild = .ok exe) ∧
    (∀ file w1 e, (s.CopySource o.create o.fprint file w1).err = some e ↔
      o.create = some e ∨ (o.create = none ∧ ∃ n, o.fprint = .failed n e)) := by
  obtain ⟨mk, cr, fp, gb⟩ := o
  refine ⟨?_, ?_, ?_, ?_, ?_, ?_⟩
  · intro e h
    simp only at h
    subst h
    simp [Service.Build, World.log]
  · intro d e h1 h2
    simp only at h1 h2
    subst h1 h2
    simp [Service.Build, Service.CopySource, World.log]
  · intro d n e h1 h2 h3
    simp only at h1 h2 h3
    subst h1 h2 h3
    simp [Service.Build, Service.CopySource, Fprint, World.log, World.putFile]
  · intro d e h1 h2 h3 h4
    simp only at h1 h2 h3 h4
    subst h1 h2 h3 h4
    simp [Service.Build, Service.CopySource, Fprint]
  · cases mk with
    | error e => simp [Service.Build]
    | ok d =>
      cases cr with
      | some e => simp [Service.Build, Service.CopySource]
      | none =>
        cases fp with
        | failed n e => simp [Service.Build, Service.CopySource, Fprint]
        | complete =>
          cases gb with
          | error e => simp [Service.Build, Service.CopySource, Fprint]
          | ok exe => simp [Service.Build, Service.CopySource, Fprint]
  · intro file w1 e
    cases cr with
    | some e1 => simp [Service.CopySource]
    | none =>
      cases fp with
      | failed n e1 => simp [Service.CopySource, Fprint]
      | complete => simp [Service.CopySource, Fprint]

theorem Build_returns_first_error_witness :
    (Service.Build linux
        ⟨.ok "/tmp/mocka-1".toList, some ⟨"read-only file system"⟩, .complete, .ok []⟩
        (NewConsoleService sampleAssets 0 42) emptyWorld).err
      = some ⟨"read-only file system"⟩ ∧
    (Service.Build linux
        ⟨.ok "/tmp/mocka-1".toList, some ⟨"read-only file system"⟩, .complete, .ok []⟩
        (NewConsoleService sampleAssets 0 42) emptyWorld).svc
      = NewConsoleService sampleAssets 0 42 ∧
    (Service.Build linux
        ⟨.ok "/tmp/mocka-1".toList, some ⟨"read-only file system"⟩, .complete, .ok []⟩
        (NewConsoleService sampleAssets 0 42) emptyWorld).out.calls
      = emptyWorld.calls ++ [Call.mkdirTemp, Call.create (linux.Join "/tmp/mocka-1".toList
          "main.go".toList)] :=
  (Build_returns_first_error linux
    ⟨.ok "/tmp/mocka-1".toList, some ⟨"read-only file system"⟩, .complete, .ok []⟩
    (NewConsoleService sampleAssets 0 42) emptyWorld).2.1 _ _ rfl rfl

/-- C5: when every step of Build succeeds, Build returns nil and the artifact path is the file
`mocka` in the directory this call obtained, with `.exe` appended exactly when the platform
is windows; a second successful Build replaces it by the path in its own directory, which is
what GetExePath returns afterwards. -/
theorem Build_success_sets_exePath (p : Platform) (o1 o2 : BuildSteps) (s : Service) (w : World)
    (d1 d2 exe1 exe2 : GoString)
    (hm1 : o1.mkdirTemp = .ok d1) (hc1 : o1.create = none) (hf1 : o1.fprint = .complete)
    (hg1 : o1.goBuild = .ok exe1)
    (hm2 : o2.mkdirTemp = .ok d2) (hc2 : o2.create = none) (hf2 : o2.fprint = .complete)
    (hg2 : o2.goBuild = .ok exe2) :
    (s.Build p o1 w).err = none ∧
    (p.GOOS = "windows".toList →
      (s.Build p o1 w).svc.GetExePath = p.Join d1 "mocka".toList ++ ".exe".toList) ∧
    (p.GOOS ≠ "windows".toList →
      (s.Build p o1 w).svc.GetExePath = p.Join d1 "mocka".toList) ∧
    ((s.Build p o1 w).svc.Build p o2 (s.Build p o1 w).out).err = none ∧
    (p.GOOS = "windows".toList →
      ((s.Build p o1 w).svc.Build p o2 (s.Build p o1 w).out).svc.GetExePath
        = p.Join d2 "mocka".toList ++ ".exe".toList) ∧
    (p.GOOS ≠ "windows".toList →
      ((s.Build p o1 w).svc.Build p o2 (s.Build p o1 w).out).svc.GetExePath
        = p.Join d2 "mocka".toList) := by
  obtain ⟨mk1, cr1, fp1, gb1⟩ := o1
  obtain ⟨mk2, cr2, fp2, gb2⟩ := o2
  simp only at hm1 hc1 hf1 hg1 hm2 hc2 hf2 hg2
  subst hm1 hc1 hf1 hg1 hm2 hc2 hf2 hg2
  refine ⟨?_, ?_, ?_, ?_, ?_, ?_⟩
  · simp [Service.Build, Service.CopySource, Fprint]
  · intro h
    simp [Service.Build, Service.CopySource, Fprint, Service.GetExePath, h]
  · intro h
    simp only [Service.Build, Service.CopySource, Fprint, Service.GetExePath, if_neg h]
  · simp [Service.Build, Service.CopySource, Fprint]
  · intro h
    simp [Service.Build, Service.CopySource, Fprint, Service.GetExePath, h]
  · intro h
    simp only [Service.Build, Service.CopySource, Fprint, Service.GetExePath, if_neg h]

theorem Build_success_sets_exePath_witness :
    (Service.Build linux (okSteps "/tmp/mocka-1".toList)
        (NewConsoleService sampleAssets 0 42) emptyWorld).svc.GetExePath
      = "/tmp/mocka-1/mocka".toList ∧
    (Service.Build linux (okSteps "/tmp/mocka-2".toList)
        (Service.Build linux (okSteps "/tmp/mocka-1".toList)
          (NewConsoleService sampleAssets 0 42) emptyWorld).svc
        (Service.Build linux (okSteps "/tmp/mocka-1".toList)
          (NewConsoleService sampleAssets 0 42) emptyWorld).out).svc.GetExePath
      = "/tmp/mocka-2/mocka".toList ∧
    (Service.Build windows (okSteps "C:\\Temp\\mocka-1".toList)
        (NewWebAppService sampleAssets 0 8080 404 "Not Found".toList)
        emptyWorld).svc.GetExePath
      = "C:\\Temp\\mocka-1\\mocka.exe".toList :=
  ⟨(Build_success_sets_exePath linux (okSteps "/tmp/mocka-1".toList)
      (okSteps "/tmp/mocka-2".toList) (NewConsoleService sampleAssets 0 42) emptyWorld
      "/tmp/mocka-1".toList "/tmp/mocka-2".toList "ELF".toList "ELF".toList
      rfl rfl rfl rfl rfl rfl rfl rfl).2.2.1 (by decide),
   (Build_success_sets_exePath linux (okSteps "/tmp/mocka-1".toList)
      (okSteps "/tmp/mocka-2".toList) (NewConsoleService sampleAssets 0 42) emptyWorld
      "/tmp/mocka-1".toList "/tmp/mocka-2".toList "ELF".toList "ELF".toList
      rfl rfl rfl rfl rfl rfl rfl rfl).2.2.2.2.2 (by decide),
   (Build_success_sets_exePath windows (okSteps "C:\\Temp\\mocka-1".toList)
      (okSteps "C:\\Temp\\mocka-2".toList)
      (NewWebAppService sampleAssets 0 8080 404 "Not Found".toList) emptyWorld
      "C:\\Temp\\mocka-1".toList "C:\\Temp\\mocka-2".toList "ELF".toList "ELF".toList
      rfl rfl rfl rfl rfl rfl rfl rfl).2.1 (by decide)⟩

/-! ## The artifact path -/

theorem Build_svc_of_error (p : Platform) (o : BuildSteps) (s : Service) (w : World)
    (h : (s.Build p o w).err.isSome = true) : (s.Build p o w).svc = s := by
  obtain ⟨mk, cr, fp, gb⟩ := o
  cases mk with
  | error e => rfl
  | ok d =>
    cases cr with
    | some e => rfl
    | none =>
      cases fp with
      | failed n e => rfl
      | complete =>
        cases gb with
        | error e => rfl
        | ok exe => simp [Service.Build, Service.CopySource, Fprint] at h

theorem WriteExe_svc (fault : Option Error) (wr : WriteOutcome) (s : Service) (w : World)
    (dst : GoString) : (s.WriteExe fault wr w dst).svc = s := by
  unfold Service.WriteExe
  split <;> rfl

theorem CopyExe_svc (fault create : Option Error) (wr : WriteOutcome) (s : Service)
    (name : GoString) (w : World) : (s.CopyExe fault create wr name w).svc = s := by
  unfold Service.CopyExe
  split
  · rfl
  · split <;> rfl

theorem CopySource_svc (create : Option Error) (wr : WriteOutcome) (s : Service)
    (file : GoString) (w : World) : (s.CopySource create wr file w).svc = s := by
  cases create <;> rfl

/-- Only a Build that returns nil changes the Service. -/
theorem step_svc (p : Platform) (st : Service × World) (op : Op)
    (h : ∀ o, op = .build o → (st.1.Build p o st.2).err.isSome = true) :
    (step p st op).2.1 = st.1 := by
  cases op with
  | writeSource wr dst => rfl
  | copySource create wr file => exact CopySource_svc _ _ _ _ _
  | build o => exact Build_svc_of_error p o st.1 st.2 (h o rfl)
  | writeExe fault wr dst => exact WriteExe_svc _ _ _ _ _
  | copyExe fault create wr name => exact CopyExe_svc _ _ _ _ _ _
  | start r ctx => rfl
  | stop => rfl

theorem runOps_svc (p : Platform) (ops : List Op) :
    ∀ st : Service × World, noBuildSucceeds p st ops = true → (runOps p st ops).1 = st.1 := by
  induction ops with
  | nil => intro st _; rfl
  | cons op ops ih =>
    intro st h
    cases op with
    | build o =>
      simp only [noBuildSucceeds, Bool.and_eq_true] at h
      rw [runOps, ih _ h.2]
      exact step_svc p st _ (fun o1 ho => by cases ho; exact h.1)
    | writeSource wr dst =>
      simp only [noBuildSucceeds] at h
      rw [runOps, ih _ h]
      exact step_svc p st _ (fun o1 ho => by cases ho)
    | copySource create wr file =>
      simp only [noBuildSucceeds] at h
      rw [runOps, ih _ h]
      exact step_svc p st _ (fun o1 ho => by cases ho)
    | writeExe fault wr dst =>
      simp only [noBuildSucceeds] at h
      rw [runOps, ih _ h]
      exact step_svc p st _ (fun o1 ho => by cases ho)
    | copyExe fault create wr name =>
      simp only [noBuildSucceeds] at h
      rw [runOps, ih _ h]
      exact step_svc p st _ (fun o1 ho => by cases ho)
    | start r ctx =>
      simp only [noBuildSucceeds] at h
      rw [runOps, ih _ h]
      exact step_svc p st _ (fun o1 ho => by cases ho)
    | stop =>
      simp only [noBuildSucceeds] at h
      rw [runOps, ih _ h]
      exact step_svc p st _ (fun o1 ho => by cases ho)

/-- C4: GetExePath returns the empty string right after NewConsoleService or NewWebAppService,
and still does after any sequence of WriteSource, CopySource, WriteExe, CopyExe, Start, Stop
and Build calls in which no Build succeeds. -/
theorem GetExePath_empty_without_successful_Build (p : Platform) (assets : Assets) (scope : Nat)
    (exitCode port statusCode : Int) (statusMessage : GoString) (s : Service)
    (hs : s = NewConsoleService assets scope exitCode ∨
      s = NewWebAppService assets scope port statusCode statusMessage)
    (w : World) (ops : List Op) (hops : noBuildSucceeds p (s, w) ops = true) :
    s.GetExePath = [] ∧ (runOps p (s, w) ops).1.GetExePath = [] := by
  have h0 : s.GetExePath = [] := by
    rcases hs with h | h <;> rw [h] <;> rfl
  exact ⟨h0, by rw [runOps_svc p ops (s, w) hops]; exact h0⟩

theorem GetExePath_empty_without_successful_Build_witness :
    (runOps linux (NewConsoleService sampleAssets 0 42, emptyWorld)
      [.stop, .build ⟨.ok "/tmp/mocka-1".toList, none, .complete, .error ⟨"exit status 1"⟩⟩,
       .start (.exited none) none, .writeExe none .complete [],
       .copySource none .complete "main.go".toList]).1.GetExePath = [] :=
  (GetExePath_empty_without_successful_Build linux sampleAssets 0 42 0 0 []
    (NewConsoleService sampleAssets 0 42) (Or.inl rfl) emptyWorld
    [.stop, .build ⟨.ok "/tmp/mocka-1".toList, none, .complete, .error ⟨"exit status 1"⟩⟩,
     .start (.exited none) none, .writeExe none .complete [],
     .copySource none .complete "main.go".toList] (by decide)).2

/-! ## Start and Stop -/

theorem cancel_cancel (w : World) (k : Nat) : (w.cancel k).cancel k = w.cancel k := by
  by_cases h : k ∈ w.cancelled
  · simp [World.cancel, h]
  · simp [World.cancel, h]

theorem cancel_files (w : World) (k : Nat) : (w.cancel k).files = w.files := by
  unfold World.cancel; split <;> rfl

theorem cancel_calls (w : World) (k : Nat) : (w.cancel k).calls = w.calls := by
  unfold World.cancel; split <;> rfl

theorem mem_cancelled_cancel (w : World) (k n : Nat) :
    n ∈ (w.cancel k).cancelled ↔ n = k ∨ n ∈ w.cancelled := by
  by_cases h : k ∈ w.cancelled
  · simp only [World.cancel, if_pos h]
    constructor
    · exact Or.inr
    · rintro (h1 | h1)
      · rw [h1]; exact h
      · exact h1
  · simp [World.cancel, h]

/-- Cancelling a scope leaves every context outside that scope as it was. -/
theorem Done_cancel_of_not_mem (c : Context) (w : World) (k : Nat) (h : k ∉ c.scopes) :
    c.Done (w.cancel k) = c.Done w := by
  unfold Context.Done
  rw [Bool.eq_iff_iff, List.any_eq_true, List.any_eq_true]
  constructor
  · rintro ⟨n, hn, hd⟩
    have hnk : n ≠ k := fun e => h (e ▸ hn)
    exact ⟨n, hn, by simpa [mem_cancelled_cancel, hnk] using hd⟩
  · rintro ⟨n, hn, hd⟩
    have hnk : n ≠ k := fun e => h (e ▸ hn)
    exact ⟨n, hn, by simpa [mem_cancelled_cancel, hnk] using hd⟩

/-- Cancelling a scope makes every context inside that scope done. -/
theorem Done_cancel_of_mem (c : Context) (w : World) (k : Nat) (h : k ∈ c.scopes) :
    c.Done (w.cancel k) = true := by
  unfold Context.Done
  rw [List.any_eq_true]
  exact ⟨k, h, by simp [mem_cancelled_cancel]⟩

theorem log_cancel (w : World) (k : Nat) (c : Call) :
    (w.cancel k).log c = (w.log c).cancel k := by
  by_cases h : k ∈ w.cancelled
  · simp [World.cancel, World.log, h]
  · simp [World.cancel, World.log, h]

theorem putFile_cancel (w : World) (k : Nat) (name data : GoString) :
    (w.cancel k).putFile name data = (w.putFile name data).cancel k := by
  by_cases h : k ∈ w.cancelled
  · simp [World.cancel, World.putFile, h]
  · simp [World.cancel, World.putFile, h]

theorem getFile_cancel (w : World) (k : Nat) (name : GoString) :
    (w.cancel k).getFile name = w.getFile name := by
  unfold World.getFile; rw [cancel_files]

theorem ReadFile_cancel (fault : Option Error) (name : GoString) (w : World) (k : Nat) :
    ReadFile fault name (w.cancel k)
      = ((ReadFile fault name w).1, (ReadFile fault name w).2.cancel k) := by
  cases fault with
  | some e => simp [ReadFile, log_cancel]
  | none =>
    cases hg : w.getFile name with
    | none => simp [ReadFile, hg, getFile_cancel, log_cancel]
    | some d => simp [ReadFile, hg, getFile_cancel, log_cancel]

theorem cmdRun_cancel (r : RunOutcome) (c : Context) (path : GoString) (w : World) (k : Nat)
    (h : k ∉ c.scopes) :
    cmdRun r c path (w.cancel k) = ((cmdRun r c path w).1, (cmdRun r c path w).2.cancel k) := by
  unfold cmdRun
  rw [Done_cancel_of_not_mem c w k h]
  by_cases hp : path = []
  · simp [hp]
  · by_cases hd : c.Done w = true
    · simp [hp, hd]
    · cases r with
      | startFailed e => simp [hp, hd]
      | exited e => simp [hp, hd, log_cancel]

theorem Build_cf (p : Platform) (o : BuildSteps) (s : Service) (w : World) :
    (s.Build p o w).svc.cf = s.cf := by
  obtain ⟨mk, cr, fp, gb⟩ := o
  cases mk with
  | error e => rfl
  | ok d =>
    cases cr with
    | some e => rfl
    | none =>
      cases fp with
      | failed n e => rfl
      | complete => cases gb <;> rfl

theorem CopySource_cancel (create : Option Error) (wr : WriteOutcome) (s : Service)
    (file : GoString) (w : World) (k : Nat) :
    s.CopySource create wr file (w.cancel k)
      = ⟨(s.CopySource create wr file w).err, (s.CopySource create wr file w).svc,
          (s.CopySource create wr file w).out.cancel k⟩ := by
  cases create with
  | some e => simp [Service.CopySource, log_cancel]
  | none => simp [Service.CopySource, log_cancel, putFile_cancel]

theorem Build_cancel (p : Platform) (o : BuildSteps) (s : Service) (w : World) (k : Nat) :
    s.Build p o (w.cancel k)
      = ⟨(s.Build p o w).err, (s.Build p o w).svc, (s.Build p o w).out.cancel k⟩ := by
  obtain ⟨mk, cr, fp, gb⟩ := o
  cases mk with
  | error e => simp [Service.Build, log_cancel]
  | ok d =>
    cases cr with
    | some e => simp [Service.Build, Service.CopySource, log_cancel]
    | none =>
      cases fp with
      | failed n e => simp [Service.Build, Service.CopySource, Fprint, log_cancel, putFile_cancel]
      | complete =>
        cases gb with
        | error e =>
          simp [Service.Build, Service.CopySource, Fprint, log_cancel, putFile_cancel]
        | ok exe =>
          simp [Service.Build, Service.CopySource, Fprint, log_cancel, putFile_cancel]

theorem WriteExe_cancel (fault : Option Error) (wr : WriteOutcome) (s : Service) (w : World)
    (dst : GoString) (k : Nat) :
    s.WriteExe fault wr (w.cancel k) dst
      = ⟨(s.WriteExe fault wr w dst).err, (s.WriteExe fault wr w dst).svc,
          ((s.WriteExe fault wr w dst).out.1.cancel k, (s.WriteExe fault wr w dst).out.2)⟩ := by
  unfold Service.WriteExe
  rw [ReadFile_cancel]
  generalize ReadFile fault s.exePath w = x
  obtain ⟨res, w1⟩ := x
  cases res <;> rfl

theorem CopyExe_cancel (fault create : Option Error) (wr : WriteOutcome) (s : Service)
    (name : GoString) (w : World) (k : Nat) :
    s.CopyExe fault create wr name (w.cancel k)
      = ⟨(s.CopyExe fault create wr name w).err, (s.CopyExe fault create wr name w).svc,
          (s.CopyExe fault create wr name w).out.cancel k⟩ := by
  unfold Service.CopyExe
  rw [ReadFile_cancel]
  generalize ReadFile fault s.exePath w = x
  obtain ⟨res, w1⟩ := x
  cases res with
  | error e => rfl
  | ok cont =>
    cases create with
    | some e => rfl
    | none => simp [log_cancel, putFile_cancel]

/-- Stop commutes with every call that does not run a process under the internal context:
the call returns the same error and leaves the same state, whether Stop came before or after. -/
theorem step_after_Stop (p : Platform) (s : Service) (w : World) (op : Op)
    (hop : ∀ r ctx, op = .start r ctx → ∃ c, ctx = some c ∧ s.cf ∉ c.scopes) :
    step p (s.Stop w) op
      = ((step p (s, w) op).1, (step p (s, w) op).2.1.Stop (step p (s, w) op).2.2) := by
  cases op with
  | writeSource wr dst => rfl
  | copySource create wr file =>
    simp only [step, Service.Stop, CopySource_cancel, CopySource_svc]
  | build o =>
    simp only [step, Service.Stop, Build_cancel, Build_cf]
  | writeExe fault wr dst =>
    simp only [step, Service.Stop, WriteExe_cancel, WriteExe_svc]
  | copyExe fault create wr name =>
    simp only [step, Service.Stop, CopyExe_cancel, CopyExe_svc]
  | start r ctx =>
    obtain ⟨c, hc, hk⟩ := hop r ctx rfl
    subst hc
    simp only [step, Service.Stop, Service.Start, Service.useCtx, cmdRun_cancel r c _ w _ hk]
  | stop => rfl

/-- C6: Start binds the process it creates to the supplied context when one is supplied and to
the internal context when the argument is nil; a supplied context that does not descend from
the internal one is never the internal one, and Stop, which cancels the internal context,
leaves it as it was. -/
theorem Start_binds_process_to_context (s : Service) (w : World) (c : Context)
    (e : Option Error)
    (hwf : s.ctx = WithCancel Background s.cf)
    (hc : s.cf ∉ c.scopes)
    (hpath : s.exePath ≠ [])
    (hlive : c.Done w = false)
    (hown : s.ctx.Done w = false) :
    (s.Start (.exited e) (some c) w).out.calls = w.calls ++ [Call.process c s.exePath] ∧
    (s.Start (.exited e) none w).out.calls = w.calls ++ [Call.process s.ctx s.exePath] ∧
    (∀ ctx : Option Context, ctx = none ∨ ctx = some c →
      (s.useCtx ctx = s.ctx ↔ ctx = none)) ∧
    (∀ w1 : World, c.Done (s.Stop w1).2 = c.Done w1) ∧
    (∀ w1 : World, s.ctx.Done (s.Stop w1).2 = true) := by
  have hne : c ≠ s.ctx := by
    intro h
    apply hc
    rw [h, hwf]
    simp [WithCancel]
  refine ⟨?_, ?_, ?_, ?_, ?_⟩
  · simp [Service.Start, Service.useCtx, cmdRun, hpath, hlive, World.log]
  · simp [Service.Start, Service.useCtx, cmdRun, hpath, hown, World.log]
  · rintro ctx (h | h)
    · simp [h, Service.useCtx]
    · simp [h, Service.useCtx, hne]
  · intro w1
    exact Done_cancel_of_not_mem c w1 s.cf hc
  · intro w1
    exact Done_cancel_of_mem s.ctx w1 s.cf (by rw [hwf]; simp [WithCancel])

theorem Start_binds_process_to_context_witness :
    (Service.Start (.exited none) (some ⟨[7]⟩)
        (Service.Build linux (okSteps "/tmp/mocka-1".toList)
          (NewConsoleService sampleAssets 0 42) emptyWorld).svc emptyWorld).out.calls
      = [Call.process ⟨[7]⟩ "/tmp/mocka-1/mocka".toList] ∧
    Context.Done ⟨[7]⟩
      (Service.Stop (Service.Build linux (okSteps "/tmp/mocka-1".toList)
          (NewConsoleService sampleAssets 0 42) emptyWorld).svc emptyWorld).2 = false :=
  ⟨(Start_binds_process_to_context
      (Service.Build linux (okSteps "/tmp/mocka-1".toList)
        (NewConsoleService sampleAssets 0 42) emptyWorld).svc emptyWorld ⟨[7]⟩ none
      rfl (by decide) (by decide) (by decide) (by decide)).1,
   (Start_binds_process_to_context
      (Service.Build linux (okSteps "/tmp/mocka-1".toList)
        (NewConsoleService sampleAssets 0 42) emptyWorld).svc emptyWorld ⟨[7]⟩ none
      rfl (by decide) (by decide) (by decide) (by decide)).2.2.2.1 emptyWorld⟩

/-- C7: Stop is idempotent: any positive number of Stop calls leaves the same state as one
call, and a Stop call returns no error. -/
theorem Stop_idempotent (p : Platform) (s : Service) (w : World) (n : Nat) :
    Nat.iterate (fun st : Service × World => st.1.Stop st.2) (n + 1) (s, w) = s.Stop w ∧
    (s.Stop w).1.Stop (s.Stop w).2 = s.Stop w ∧
    (step p (s, w) Op.stop).1 = none ∧
    (step p (step p (s, w) Op.stop).2 Op.stop).1 = none := by
  have h2 : (s.Stop w).1.Stop (s.Stop w).2 = s.Stop w := by
    simp [Service.Stop, cancel_cancel]
  refine ⟨?_, h2, rfl, rfl⟩
  induction n with
  | zero => rfl
  | succ k ih =>
    rw [Function.iterate_succ_apply', ih]
    exact h2

/-- C8, as the code has it: Stop on a Service returns normally and changes neither the Service
nor the files nor the record of calls, but it cancels the internal context. Every later call
other than a Start under the internal context returns the same error and leaves the same state
as without the Stop; a later Start(nil) creates no process and returns an error, which is
`context.Canceled` once an artifact has been built. -/
theorem Stop_before_Start_effect (s : Service) (w : World)
    (hwf : s.ctx = WithCancel Background s.cf) :
    (s.Stop w).1 = s ∧ (s.Stop w).2.files = w.files ∧ (s.Stop w).2.calls = w.calls ∧
    (∀ (p : Platform) (op : Op),
      (∀ r ctx, op = .start r ctx → ∃ c, ctx = some c ∧ s.cf ∉ c.scopes) →
      step p (s.Stop w) op
        = ((step p (s, w) op).1, (step p (s, w) op).2.1.Stop (step p (s, w) op).2.2)) ∧
    (∀ r : RunOutcome,
      ((s.Stop w).1.Start r none (s.Stop w).2).err
        = some (if s.exePath = [] then ErrNoCommand else Canceled) ∧
      ((s.Stop w).1.Start r none (s.Stop w).2).out = (s.Stop w).2) := by
  refine ⟨rfl, cancel_files w s.cf, cancel_calls w s.cf, ?_, ?_⟩
  · intro p op hop
    exact step_after_Stop p s w op hop
  · intro r
    have hd : s.ctx.Done (w.cancel s.cf) = true :=
      Done_cancel_of_mem s.ctx w s.cf (by rw [hwf]; simp [WithCancel])
    by_cases hp : s.exePath = []
    · simp [Service.Start, Service.Stop, Service.useCtx, cmdRun, hp]
    · simp [Service.Start, Service.Stop, Service.useCtx, cmdRun, hp, hd]

theorem Stop_before_Start_effect_witness :
    (Service.Start (.exited none) none
      (Service.Stop (Service.Build linux (okSteps "/tmp/mocka-1".toList)
        (NewConsoleService sampleAssets 0 42) emptyWorld).svc emptyWorld).1
      (Service.Stop (Service.Build linux (okSteps "/tmp/mocka-1".toList)
        (NewConsoleService sampleAssets 0 42) emptyWorld).svc emptyWorld).2).err
      = some (if (Service.Build linux (okSteps "/tmp/mocka-1".toList)
          (NewConsoleService sampleAssets 0 42) emptyWorld).svc.exePath = []
        then ErrNoCommand else Canceled) :=
  ((Stop_before_Start_effect
    (Service.Build linux (okSteps "/tmp/mocka-1".toList)
      (NewConsoleService sampleAssets 0 42) emptyWorld).svc emptyWorld rfl).2.2.2.2
    (.exited none)).1

/-- C8 fails as stated: on a console Service with exit code 42, the calls Build (successful)
and Start(nil) start a process and return nil, while the calls Stop, Build (successful) and
Start(nil) start no process and return `context.Canceled`. -/
theorem Stop_before_Start_is_not_a_noop :
    (step linux (runOps linux (NewConsoleService sampleAssets 0 42, emptyWorld)
        [.build (okSteps "/tmp/mocka-1".toList)]) (.start (.exited none) none)).1 = none ∧
    (step linux (runOps linux (NewConsoleService sampleAssets 0 42, emptyWorld)
        [.stop, .build (okSteps "/tmp/mocka-1".toList)]) (.start (.exited none) none)).1
      = some Canceled ∧
    Call.process (WithCancel Background 0) "/tmp/mocka-1/mocka".toList ∈
      (step linux (runOps linux (NewConsoleService sampleAssets 0 42, emptyWorld)
        [.build (okSteps "/tmp/mocka-1".toList)]) (.start (.exited none) none)).2.2.calls ∧
    Call.process (WithCancel Background 0) "/tmp/mocka-1/mocka".toList ∉
      (step linux (runOps linux (NewConsoleService sampleAssets 0 42, emptyWorld)
        [.stop, .build (okSteps "/tmp/mocka-1".toList)])
        (.start (.exited none) none)).2.2.calls := by
  decide

/-- C9: on a Service whose artifact path is empty, Start with any context argument returns the
error of running an empty command, creates no process and changes nothing. -/
theorem Start_without_artifact_fails (r : RunOutcome) (ctx : Option Context) (s : Service)
    (w : World) (h : s.GetExePath = []) :
    (s.Start r ctx w).err = some ErrNoCommand ∧ (s.Start r ctx w).out = w ∧
    (s.Start r ctx w).svc = s := by
  have h1 : s.exePath = [] := h
  simp [Service.Start, cmdRun, h1]

theorem Start_without_artifact_fails_witness :
    (Service.Start (.exited none) none (NewConsoleService sampleAssets 0 42) emptyWorld).err
      = some ErrNoCommand ∧
    (Service.Start (.exited none) none (NewConsoleService sampleAssets 0 42) emptyWorld).out
      = emptyWorld :=
  ⟨(Start_without_artifact_fails (.exited none) none (NewConsoleService sampleAssets 0 42)
      emptyWorld rfl).1,
   (Start_without_artifact_fails (.exited none) none (NewConsoleService sampleAssets 0 42)
      emptyWorld rfl).2.1⟩

end Mocka
